import Mathlib

/-!
Verification of the premerge-gate review pipeline.

The Python sources under `src/` are shallowly embedded here:
pure functions become Lean functions, Python `float` is modelled as the
exact rationals `ℚ`, Python strings as `List Char`, fallible code as
`Except`/`Option`.  Definitions follow the source files
(`src/review/state.py`, `src/review/nodes/decision_engine.py`,
`src/review/nodes/bug_logic_review.py`, `src/review/nodes/intent_analysis.py`)
line by line wherever Lean permits.
-/

/-- Issue severity levels (`Severity` in src/review/state.py). -/
inductive Severity where
  | BLOCKING
  | NON_BLOCKING
  | SUGGESTION
deriving DecidableEq, Repr

/-- Issue categories (`Category` in src/review/state.py). -/
inductive Category where
  | CORRECTNESS
  | ENGINEERING_QUALITY
  | PRODUCTION_READINESS
  | SECURITY
deriving DecidableEq, Repr

/-- Python strings are modelled as lists of characters. -/
abbrev PyStr := List Char

/-- A single finding from the review process (`ReviewFinding` in
src/review/state.py).  The pydantic field defaults are reproduced;
`confidence` carries the `ge=0.0, le=1.0` bounds as a validation step in the
extractor model below, not as a subtype here. -/
structure ReviewFinding where
  severity : Severity
  category : Category
  title : PyStr
  description : PyStr
  file_path : Option PyStr := Option.none
  line_start : Option Int := Option.none
  line_end : Option Int := Option.none
  code_snippet : Option PyStr := Option.none
  suggested_fix : Option PyStr := Option.none
  confidence : ℚ := 4/5
deriving DecidableEq, Repr

/-- The patch returned by `decision_engine` (the dict literal at the end of
src/review/nodes/decision_engine.py). -/
structure DecisionPatch where
  decision : String
  confidence_score : ℚ
  current_stage : String
deriving DecidableEq, Repr

/-- Merge two lists of findings (`merge_findings` in src/review/state.py):
plain concatenation, no deduplication. -/
def merge_findings (existing news : List ReviewFinding) : List ReviewFinding :=
  existing ++ news

/-- Round half to even at an integer, modelling the rounding used by
Python's builtin `round`. -/
def roundHalfEven (q : ℚ) : ℤ :=
  if q - ⌊q⌋ < 1/2 then ⌊q⌋
  else if 1/2 < q - ⌊q⌋ then ⌊q⌋ + 1
  else if Even ⌊q⌋ then ⌊q⌋ else ⌊q⌋ + 1

/-- Python's `round(x, 2)` on the exact-rational model of floats. -/
def pyRound2 (q : ℚ) : ℚ := (roundHalfEven (100 * q) : ℚ) / 100

/-- `decision_engine` from src/review/nodes/decision_engine.py, as a function
of the accumulated findings list (the only part of the state it reads).
Float arithmetic is modelled exactly over ℚ. -/
def decision_engine (findings : List ReviewFinding) : DecisionPatch :=
  let blocking_count := findings.countP (fun f => f.severity == Severity.BLOCKING)
  let non_blocking_count := findings.countP (fun f => f.severity == Severity.NON_BLOCKING)
  let suggestion_count := findings.countP (fun f => f.severity == Severity.SUGGESTION)
  let decision : String := if blocking_count > 0 then "FAIL" else "PASS"
  let avg_confidence : ℚ :=
    if findings ≠ [] then (findings.map ReviewFinding.confidence).sum / (findings.length : ℚ)
    else 9/10
  let confidence_score : ℚ :=
    if decision = "FAIL" then min (95/100) (avg_confidence + 1/10)
    else max (7/10) (avg_confidence - 1/10)
  { decision := decision
    confidence_score := pyRound2 confidence_score
    current_stage := "decision_engine" }

/-- The decision field of `decision_engine` in closed form. -/
theorem decision_engine_decision_eq (F : List ReviewFinding) :
    (decision_engine F).decision =
      if 0 < F.countP (fun f => f.severity == Severity.BLOCKING) then "FAIL" else "PASS" := rfl

/-- C1: the decision is "FAIL" iff some finding has severity BLOCKING,
and "PASS" otherwise. -/
theorem decision_engine_blocking_dominance (F : List ReviewFinding) :
    ((decision_engine F).decision = "FAIL" ↔ ∃ f ∈ F, f.severity = Severity.BLOCKING)
    ∧ ((decision_engine F).decision = "PASS" ↔ ∀ f ∈ F, f.severity ≠ Severity.BLOCKING) := by
  have hcount : (0 < F.countP (fun f => f.severity == Severity.BLOCKING)) ↔
      ∃ f ∈ F, f.severity = Severity.BLOCKING := by
    rw [List.countP_pos_iff]
    simp
  rw [decision_engine_decision_eq]
  by_cases h : 0 < F.countP (fun f => f.severity == Severity.BLOCKING)
  · rw [if_pos h]
    constructor
    · exact ⟨fun _ => hcount.mp h, fun _ => rfl⟩
    · constructor
      · intro hfalse; exact absurd hfalse (by decide)
      · intro hall
        rcases hcount.mp h with ⟨f, hf, hsev⟩
        exact absurd hsev (hall f hf)
  · rw [if_neg h]
    constructor
    · constructor
      · intro hfalse; exact absurd hfalse (by decide)
      · intro hex; exact absurd (hcount.mpr hex) h
    · refine ⟨fun _ f hf hsev => ?_, fun _ => rfl⟩
      exact h (hcount.mpr ⟨f, hf, hsev⟩)

/-- The mean-confidence computation inside `decision_engine`
(`avg_confidence` at decision_engine.py lines 37-40). -/
def avg_confidence_of (findings : List ReviewFinding) : ℚ :=
  if findings ≠ [] then (findings.map ReviewFinding.confidence).sum / (findings.length : ℚ)
  else 9/10

/-- The confidence field of `decision_engine` in terms of `avg_confidence_of`. -/
theorem decision_engine_confidence_eq (F : List ReviewFinding) :
    (decision_engine F).confidence_score =
      pyRound2 (if (decision_engine F).decision = "FAIL"
        then min (95/100) (avg_confidence_of F + 1/10)
        else max (7/10) (avg_confidence_of F - 1/10)) := rfl

theorem le_roundHalfEven {a : ℤ} {q : ℚ} (ha : (a : ℚ) ≤ q) : a ≤ roundHalfEven q := by
  have h : a ≤ ⌊q⌋ := Int.le_floor.mpr ha
  unfold roundHalfEven
  split_ifs <;> omega

theorem roundHalfEven_le {b : ℤ} {q : ℚ} (hb : q ≤ (b : ℚ)) : roundHalfEven q ≤ b := by
  have hfb : ⌊q⌋ ≤ b := by
    have h := Int.floor_le_floor hb
    simpa using h
  have hkey : ¬(q - (⌊q⌋ : ℚ) < 1/2) → ⌊q⌋ + 1 ≤ b := by
    intro h1
    rcases lt_or_eq_of_le hfb with hlt | heq
    · omega
    · exfalso
      push_neg at h1
      rw [heq] at h1
      linarith
  unfold roundHalfEven
  split_ifs with h1 h2 h3
  · exact hfb
  · exact hkey h1
  · exact hfb
  · exact hkey h1

theorem le_pyRound2 {a : ℤ} {q : ℚ} (ha : (a : ℚ) ≤ 100 * q) : (a : ℚ) / 100 ≤ pyRound2 q := by
  have h : (a : ℚ) ≤ (roundHalfEven (100 * q) : ℚ) := by exact_mod_cast le_roundHalfEven ha
  unfold pyRound2
  linarith

theorem pyRound2_le {b : ℤ} {q : ℚ} (hb : 100 * q ≤ (b : ℚ)) : pyRound2 q ≤ (b : ℚ) / 100 := by
  have h : (roundHalfEven (100 * q) : ℚ) ≤ (b : ℚ) := by exact_mod_cast roundHalfEven_le hb
  unfold pyRound2
  linarith

theorem avg_confidence_of_bounds (F : List ReviewFinding)
    (h : ∀ f ∈ F, 0 ≤ f.confidence ∧ f.confidence ≤ 1) :
    0 ≤ avg_confidence_of F ∧ avg_confidence_of F ≤ 1 := by
  unfold avg_confidence_of
  split_ifs with hne
  · have hlen : 0 < (F.length : ℚ) := by
      have hpos : 0 < F.length := List.length_pos.mpr hne
      exact_mod_cast hpos
    have hsum0 : 0 ≤ (F.map ReviewFinding.confidence).sum := by
      apply List.sum_nonneg
      intro x hx
      rcases List.mem_map.mp hx with ⟨f, hf, rfl⟩
      exact (h f hf).1
    have hsum1 : (F.map ReviewFinding.confidence).sum ≤ (F.length : ℚ) := by
      have hb := List.sum_le_card_nsmul (F.map ReviewFinding.confidence) 1 ?_
      · simpa using hb
      · intro x hx
        rcases List.mem_map.mp hx with ⟨f, hf, rfl⟩
        exact (h f hf).2
    exact ⟨div_nonneg hsum0 (le_of_lt hlen), by rw [div_le_one hlen]; exact hsum1⟩
  · norm_num

/-- C6: when every finding's confidence lies in [0,1], the returned
confidence_score lies in [0,1]. -/
theorem decision_engine_confidence_in_unit_interval (F : List ReviewFinding)
    (h : ∀ f ∈ F, 0 ≤ f.confidence ∧ f.confidence ≤ 1) :
    0 ≤ (decision_engine F).confidence_score ∧ (decision_engine F).confidence_score ≤ 1 := by
  obtain ⟨ha0, ha1⟩ := avg_confidence_of_bounds F h
  rw [decision_engine_confidence_eq]
  by_cases hd : (decision_engine F).decision = "FAIL"
  · rw [if_pos hd]
    have hx0 : (0 : ℚ) ≤ min (95/100) (avg_confidence_of F + 1/10) :=
      le_min (by norm_num) (by linarith)
    have hx1 : min (95/100) (avg_confidence_of F + 1/10) ≤ 1 :=
      le_trans (min_le_left _ _) (by norm_num)
    constructor
    · have := le_pyRound2 (a := 0) (q := min (95/100) (avg_confidence_of F + 1/10)) (by push_cast; linarith)
      simpa using this
    · have := pyRound2_le (b := 100) (q := min (95/100) (avg_confidence_of F + 1/10)) (by push_cast; linarith)
      simpa using this
  · rw [if_neg hd]
    have hx0 : (7/10 : ℚ) ≤ max (7/10) (avg_confidence_of F - 1/10) := le_max_left _ _
    have hx1 : max (7/10) (avg_confidence_of F - 1/10) ≤ 1 :=
      max_le (by norm_num) (by linarith)
    constructor
    · have := le_pyRound2 (a := 0) (q := max (7/10) (avg_confidence_of F - 1/10)) (by push_cast; linarith)
      simpa using this
    · have := pyRound2_le (b := 100) (q := max (7/10) (avg_confidence_of F - 1/10)) (by push_cast; linarith)
      simpa using this

/-- C6 witness at a concrete input. -/
theorem decision_engine_confidence_in_unit_interval_witness :
    0 ≤ (decision_engine []).confidence_score ∧ (decision_engine []).confidence_score ≤ 1 :=
  decision_engine_confidence_in_unit_interval [] (by simp)

/-- C10: for confidences in [0,1], a PASS score lies in [0.7, 0.9], a FAIL
score is at most 0.95, and the score is a whole number of hundredths
(two-decimal rounding). -/
theorem decision_engine_clamping (F : List ReviewFinding)
    (h : ∀ f ∈ F, 0 ≤ f.confidence ∧ f.confidence ≤ 1) :
    ((decision_engine F).decision = "PASS" →
        7/10 ≤ (decision_engine F).confidence_score
        ∧ (decision_engine F).confidence_score ≤ 9/10)
    ∧ ((decision_engine F).decision = "FAIL" →
        (decision_engine F).confidence_score ≤ 95/100)
    ∧ ∃ k : ℤ, (decision_engine F).confidence_score = (k : ℚ) / 100 := by
  obtain ⟨ha0, ha1⟩ := avg_confidence_of_bounds F h
  refine ⟨?_, ?_, ?_⟩
  · intro hpass
    have hd : ¬((decision_engine F).decision = "FAIL") := by rw [hpass]; decide
    rw [decision_engine_confidence_eq, if_neg hd]
    have hx0 : (7/10 : ℚ) ≤ max (7/10) (avg_confidence_of F - 1/10) := le_max_left _ _
    have hx1 : max (7/10) (avg_confidence_of F - 1/10) ≤ 9/10 :=
      max_le (by norm_num) (by linarith)
    constructor
    · have := le_pyRound2 (a := 70) (q := max (7/10) (avg_confidence_of F - 1/10)) (by push_cast; linarith)
      push_cast at this
      linarith
    · have := pyRound2_le (b := 90) (q := max (7/10) (avg_confidence_of F - 1/10)) (by push_cast; linarith)
      push_cast at this
      linarith
  · intro hfail
    rw [decision_engine_confidence_eq, if_pos hfail]
    have hx1 : min (95/100) (avg_confidence_of F + 1/10) ≤ 95/100 := min_le_left _ _
    have := pyRound2_le (b := 95) (q := min (95/100) (avg_confidence_of F + 1/10)) (by push_cast; linarith)
    push_cast at this
    linarith
  · rw [decision_engine_confidence_eq]
    exact ⟨_, rfl⟩

/-- C10 witness at a concrete input. -/
theorem decision_engine_clamping_witness :
    7/10 ≤ (decision_engine []).confidence_score
    ∧ (decision_engine []).confidence_score ≤ 9/10 :=
  (decision_engine_clamping [] (by simp)).1 (by decide)

/-- `round(x, 2)` leaves a value that is already a whole number of
hundredths unchanged. -/
theorem pyRound2_exact {k : ℤ} {q : ℚ} (h : 100 * q = (k : ℚ)) : pyRound2 q = q := by
  unfold pyRound2 roundHalfEven
  rw [h, Int.floor_intCast]
  simp only [sub_self]
  rw [if_pos (by norm_num : (0 : ℚ) < 1/2)]
  linarith

/-- The confidence_score on the empty findings list evaluates to 0.8. -/
theorem decision_engine_empty_confidence : (decision_engine []).confidence_score = 4/5 := by
  rw [decision_engine_confidence_eq]
  have hd : ¬((decision_engine ([] : List ReviewFinding)).decision = "FAIL") := by decide
  rw [if_neg hd]
  have havg : avg_confidence_of [] = 9/10 := by norm_num [avg_confidence_of]
  rw [havg]
  have hmax : max (7/10 : ℚ) (9/10 - 1/10) = 4/5 := by norm_num
  rw [hmax]
  exact pyRound2_exact (k := 80) (by norm_num)

/-- C2 counterexample: on the empty findings list the code returns
confidence_score 0.8, which is below the claimed band [0.85, 1.0]. -/
theorem decision_engine_empty_counterexample :
    (decision_engine []).decision = "PASS"
    ∧ ¬(85/100 ≤ (decision_engine []).confidence_score) := by
  refine ⟨by decide, ?_⟩
  rw [decision_engine_empty_confidence]
  norm_num

/-- C2 amended: on the empty findings list the decision is "PASS" and the
confidence_score is exactly 0.8 (the 0.9 no-findings constant minus the
0.1 PASS adjustment). -/
theorem decision_engine_empty :
    (decision_engine []).decision = "PASS"
    ∧ (decision_engine []).confidence_score = 4/5 :=
  ⟨by decide, decision_engine_empty_confidence⟩

/-- C5: the decision and the confidence_score are invariant under any
permutation of the findings sequence. -/
theorem decision_engine_perm_invariant (F F' : List ReviewFinding) (hp : F.Perm F') :
    (decision_engine F).decision = (decision_engine F').decision
    ∧ (decision_engine F).confidence_score = (decision_engine F').confidence_score := by
  have hc : F.countP (fun f => f.severity == Severity.BLOCKING)
      = F'.countP (fun f => f.severity == Severity.BLOCKING) := hp.countP_eq _
  have hs : (F.map ReviewFinding.confidence).sum = (F'.map ReviewFinding.confidence).sum :=
    (hp.map ReviewFinding.confidence).sum_eq
  have hl : F.length = F'.length := hp.length_eq
  have hnil : (F = []) ↔ (F' = []) := by
    constructor
    · intro he; subst he; exact hp.symm.eq_nil
    · intro he; subst he; exact hp.eq_nil
  have havg : avg_confidence_of F = avg_confidence_of F' := by
    unfold avg_confidence_of
    rw [hs, hl]
    exact if_congr (not_congr hnil) rfl rfl
  have h1 : (decision_engine F).decision = (decision_engine F').decision := by
    rw [decision_engine_decision_eq, decision_engine_decision_eq, hc]
  refine ⟨h1, ?_⟩
  rw [decision_engine_confidence_eq, decision_engine_confidence_eq, havg, h1]

/-- C5 witness: a concrete two-element swap. -/
theorem decision_engine_perm_invariant_witness :
    (decision_engine
        [{ severity := Severity.BLOCKING, category := Category.CORRECTNESS,
           title := [], description := [] },
         { severity := Severity.SUGGESTION, category := Category.SECURITY,
           title := [], description := [], confidence := 1/2 }]).decision
      = (decision_engine
        [{ severity := Severity.SUGGESTION, category := Category.SECURITY,
           title := [], description := [], confidence := 1/2 },
         { severity := Severity.BLOCKING, category := Category.CORRECTNESS,
           title := [], description := [] }]).decision
    ∧ (decision_engine
        [{ severity := Severity.BLOCKING, category := Category.CORRECTNESS,
           title := [], description := [] },
         { severity := Severity.SUGGESTION, category := Category.SECURITY,
           title := [], description := [], confidence := 1/2 }]).confidence_score
      = (decision_engine
        [{ severity := Severity.SUGGESTION, category := Category.SECURITY,
           title := [], description := [], confidence := 1/2 },
         { severity := Severity.BLOCKING, category := Category.CORRECTNESS,
           title := [], description := [] }]).confidence_score :=
  decision_engine_perm_invariant _ _ (List.Perm.swap _ _ _)

/-- C8: the findings merge is pure concatenation: lengths add, the prefix is
the existing list, the suffix is the new list, and folding the merge over the
per-stage findings lists concatenates them all in order. -/
theorem merge_findings_append_only :
    (∀ (E N : List ReviewFinding),
        (merge_findings E N).length = E.length + N.length
        ∧ (merge_findings E N).take E.length = E
        ∧ (merge_findings E N).drop E.length = N)
    ∧ (∀ stageFindings : List (List ReviewFinding),
        List.foldl merge_findings [] stageFindings = stageFindings.flatten
        ∧ (List.foldl merge_findings [] stageFindings).length
            = (stageFindings.map List.length).sum) := by
  have hfold : ∀ (a : List ReviewFinding) (l : List (List ReviewFinding)),
      List.foldl merge_findings a l = a ++ l.flatten := by
    intro a l
    induction l generalizing a with
    | nil => simp
    | cons x xs ih => simp [merge_findings, ih, List.append_assoc]
  constructor
  · intro E N
    refine ⟨by simp [merge_findings], ?_, ?_⟩
    · simp [merge_findings, List.take_left]
    · simp [merge_findings, List.drop_left]
  · intro sf
    constructor
    · simpa using hfold [] sf
    · rw [hfold [] sf]
      simp [List.length_flatten]

/-- Python's whitespace set for `str.strip` (the model covers the ASCII
whitespace characters that can appear in generator output). -/
def isPyWs (c : Char) : Bool :=
  c = ' ' || c = '\t' || c = '\n' || c = '\r' || c = '\x0b' || c = '\x0c'

/-- Python's `str.strip()`: drop leading and trailing whitespace. -/
def pyStrip (s : PyStr) : PyStr :=
  ((s.dropWhile isPyWs).reverse.dropWhile isPyWs).reverse

/-- Split a string at the first occurrence of `sep` (assumed non-empty):
`some (pre, post)` with the input equal to `pre ++ sep ++ post` and `pre`
shortest, `none` when `sep` does not occur. -/
def firstSplit (sep : PyStr) : PyStr → Option (PyStr × PyStr)
  | [] => Option.none
  | c :: rest =>
    if sep.isPrefixOf (c :: rest) then some ([], (c :: rest).drop sep.length)
    else
      match firstSplit sep rest with
      | some (pre, post) => some (c :: pre, post)
      | Option.none => Option.none

/-- Worker for `pySplit`; `fuel` bounds the number of separator cuts. -/
def pySplitAux (sep : PyStr) : ℕ → PyStr → List PyStr
  | 0, s => [s]
  | fuel + 1, s =>
    match firstSplit sep s with
    | Option.none => [s]
    | some (pre, post) => pre :: pySplitAux sep fuel post

/-- Python's `str.split(sep)` for non-empty `sep`. -/
def pySplit (sep s : PyStr) : List PyStr := pySplitAux sep (s.length + 1) s

/-- Python's substring test `sep in s` (for non-empty `sep`). -/
def pyContainsSub (sep s : PyStr) : Bool := (firstSplit sep s).isSome

/-- The JSON-tagged fence marker string. -/
def fenceJson : PyStr := "```json".toList

/-- The generic fence marker string. -/
def fence3 : PyStr := "```".toList

/-- The fenced-code-block handling shared by `_parse_findings`
(bug_logic_review.py lines 113-117) and `intent_analysis`
(intent_analysis.py lines 69-73): take `split(sep)[1].split(sep2)[0]`
on the first applicable fence marker. -/
def extract_fenced (content : PyStr) : PyStr :=
  if pyContainsSub fenceJson content then
    (pySplit fence3 ((pySplit fenceJson content).getD 1 [])).getD 0 []
  else if pyContainsSub fence3 content then
    (pySplit fence3 ((pySplit fence3 content).getD 1 [])).getD 0 []
  else content

/-- Python exceptions that the embedded code can raise or catch. -/
inductive PyExc where
  | jsonDecodeError
  | keyError
  | typeError
  | attributeError
  | validationError
  | valueError
deriving DecidableEq, Repr

deriving instance DecidableEq for Except

/-- Python values as decoded from JSON (plus `None`): the result type of
`json.loads`.  Dicts are association lists in insertion order. -/
inductive PyVal where
  | none : PyVal
  | bool : Bool → PyVal
  | int : ℤ → PyVal
  | float : ℚ → PyVal
  | str : PyStr → PyVal
  | list : List PyVal → PyVal
  | dict : List (PyStr × PyVal) → PyVal

/-- JSON whitespace accepted between tokens by `json.loads`. -/
def isJsonWs (c : Char) : Bool :=
  c = ' ' || c = '\t' || c = '\n' || c = '\r'

def skipJsonWs (s : PyStr) : PyStr := s.dropWhile isJsonWs

def hexDigitVal (c : Char) : Option ℕ :=
  if '0' ≤ c ∧ c ≤ '9' then some (c.toNat - '0'.toNat)
  else if 'a' ≤ c ∧ c ≤ 'f' then some (c.toNat - 'a'.toNat + 10)
  else if 'A' ≤ c ∧ c ≤ 'F' then some (c.toNat - 'A'.toNat + 10)
  else Option.none

/-- Body of a JSON string literal after the opening quote: the decoded
characters and the input following the closing quote. -/
def parseStringBody : PyStr → Option (PyStr × PyStr)
  | [] => Option.none
  | '"' :: rest => some ([], rest)
  | '\\' :: rest =>
    match rest with
    | '"' :: r => (parseStringBody r).map (fun p => ('"' :: p.1, p.2))
    | '\\' :: r => (parseStringBody r).map (fun p => ('\\' :: p.1, p.2))
    | '/' :: r => (parseStringBody r).map (fun p => ('/' :: p.1, p.2))
    | 'b' :: r => (parseStringBody r).map (fun p => (Char.ofNat 8 :: p.1, p.2))
    | 'f' :: r => (parseStringBody r).map (fun p => (Char.ofNat 12 :: p.1, p.2))
    | 'n' :: r => (parseStringBody r).map (fun p => ('\n' :: p.1, p.2))
    | 'r' :: r => (parseStringBody r).map (fun p => ('\r' :: p.1, p.2))
    | 't' :: r => (parseStringBody r).map (fun p => ('\t' :: p.1, p.2))
    | 'u' :: h1 :: h2 :: h3 :: h4 :: r =>
      match hexDigitVal h1, hexDigitVal h2, hexDigitVal h3, hexDigitVal h4 with
      | some a, some b, some c, some d =>
        (parseStringBody r).map
          (fun p => (Char.ofNat (((a * 16 + b) * 16 + c) * 16 + d) :: p.1, p.2))
      | _, _, _, _ => Option.none
    | _ => Option.none
  | c :: rest => (parseStringBody rest).map (fun p => (c :: p.1, p.2))

def digitsToNat (ds : PyStr) : ℕ :=
  ds.foldl (fun a c => a * 10 + (c.toNat - '0'.toNat)) 0

/-- The optional exponent part of a JSON number, after the `e`/`E` marker. -/
def parseExpAfterE (s : PyStr) : Option (ℤ × PyStr) :=
  let eneg : Bool := decide (s.take 1 = ['-'])
  let s1 := if s.take 1 = ['-'] ∨ s.take 1 = ['+'] then s.drop 1 else s
  let ds := s1.takeWhile Char.isDigit
  if ds = [] then Option.none
  else some (if eneg then -(digitsToNat ds : ℤ) else (digitsToNat ds : ℤ), s1.drop ds.length)

/-- A JSON number token (grammar of RFC 8259 as enforced by `json.loads`:
an optional minus, an integer part without leading zeros, optional
fraction and exponent).  Integer literals decode to Python `int`,
the rest to `float`. -/
def parseNumber (s : PyStr) : Option (PyVal × PyStr) :=
  let neg : Bool := decide (s.take 1 = ['-'])
  let s1 := if neg then s.drop 1 else s
  let intDigits := s1.takeWhile Char.isDigit
  if intDigits = [] then Option.none
  else if 1 < intDigits.length ∧ intDigits.headI = '0' then Option.none
  else
    let s2 := s1.drop intDigits.length
    let hasDot : Bool := decide (s2.take 1 = ['.'])
    let fracDigits := if hasDot then (s2.drop 1).takeWhile Char.isDigit else []
    if hasDot = true ∧ fracDigits = [] then Option.none
    else
      let s3 := if hasDot then (s2.drop 1).drop fracDigits.length else s2
      let hasExp : Bool := decide (s3.take 1 = ['e'] ∨ s3.take 1 = ['E'])
      let mantissa : ℚ := (digitsToNat intDigits : ℚ) +
        (digitsToNat fracDigits : ℚ) / (10 : ℚ) ^ fracDigits.length
      let signedMant : ℚ := if neg then -mantissa else mantissa
      if hasExp then
        match parseExpAfterE (s3.drop 1) with
        | Option.none => Option.none
        | some (e, s4) => some (PyVal.float (signedMant * (10 : ℚ) ^ e), s4)
      else if hasDot then some (PyVal.float signedMant, s3)
      else
        some (PyVal.int (if neg then -(digitsToNat intDigits : ℤ)
          else (digitsToNat intDigits : ℤ)), s3)

mutual

/-- One JSON value (recursive descent, fuel-bounded; `json_loads` supplies
ample fuel). -/
def jsonVal : ℕ → PyStr → Option (PyVal × PyStr)
  | 0, _ => Option.none
  | fuel + 1, s =>
    match skipJsonWs s with
    | 'n' :: 'u' :: 'l' :: 'l' :: r => some (PyVal.none, r)
    | 't' :: 'r' :: 'u' :: 'e' :: r => some (PyVal.bool true, r)
    | 'f' :: 'a' :: 'l' :: 's' :: 'e' :: r => some (PyVal.bool false, r)
    | '"' :: r => (parseStringBody r).map (fun p => (PyVal.str p.1, p.2))
    | '[' :: r => jsonItems fuel r
    | '{' :: r => jsonMembers fuel r
    | t => parseNumber t

/-- The items of a JSON array, after the opening bracket. -/
def jsonItems : ℕ → PyStr → Option (PyVal × PyStr)
  | 0, _ => Option.none
  | fuel + 1, s =>
    match skipJsonWs s with
    | ']' :: r => some (PyVal.list [], r)
    | t => do
      let (v, r1) ← jsonVal fuel t
      let (vs, r2) ← jsonItemsRest fuel r1
      pure (PyVal.list (v :: vs), r2)

/-- The remaining items of a JSON array, at a comma or closing bracket. -/
def jsonItemsRest : ℕ → PyStr → Option (List PyVal × PyStr)
  | 0, _ => Option.none
  | fuel + 1, s =>
    match skipJsonWs s with
    | ']' :: r => some ([], r)
    | ',' :: r => do
      let (v, r1) ← jsonVal fuel r
      let (vs, r2) ← jsonItemsRest fuel r1
      pure (v :: vs, r2)
    | _ => Option.none

/-- The members of a JSON object, after the opening brace. -/
def jsonMembers : ℕ → PyStr → Option (PyVal × PyStr)
  | 0, _ => Option.none
  | fuel + 1, s =>
    match skipJsonWs s with
    | '}' :: r => some (PyVal.dict [], r)
    | '"' :: r => do
      let (k, r1) ← parseStringBody r
      match skipJsonWs r1 with
      | ':' :: r2 => do
        let (v, r3) ← jsonVal fuel r2
        let (ms, r4) ← jsonMembersRest fuel r3
        pure (PyVal.dict ((k, v) :: ms), r4)
      | _ => Option.none
    | _ => Option.none

/-- The remaining members of a JSON object, at a comma or closing brace. -/
def jsonMembersRest : ℕ → PyStr → Option (List (PyStr × PyVal) × PyStr)
  | 0, _ => Option.none
  | fuel + 1, s =>
    match skipJsonWs s with
    | '}' :: r => some ([], r)
    | ',' :: r =>
      match skipJsonWs r with
      | '"' :: r1 => do
        let (k, r2) ← parseStringBody r1
        match skipJsonWs r2 with
        | ':' :: r3 => do
          let (v, r4) ← jsonVal fuel r3
          let (ms, r5) ← jsonMembersRest fuel r4
          pure ((k, v) :: ms, r5)
        | _ => Option.none
      | _ => Option.none
    | _ => Option.none

end

/-- Python's `json.loads`: parse one JSON document, requiring the whole
input to be consumed (up to trailing whitespace).  `none` models a raised
`json.JSONDecodeError`.  (The non-standard `NaN`/`Infinity` literals and
the rejection of raw control characters inside strings are not modelled;
no input considered in this development depends on them.) -/
def json_loads (s : PyStr) : Option PyVal :=
  match jsonVal (2 * s.length + 2) s with
  | Option.none => Option.none
  | some (v, rest) => if skipJsonWs rest = [] then some v else Option.none

/-- The Python float literal `0.8` in normalized-fraction form. -/
def pyFloat08 : ℚ := ⟨4, 5, by norm_num, by norm_num⟩

theorem pyFloat08_eq : pyFloat08 = 4/5 := by
  rw [← Rat.num_div_den pyFloat08]
  norm_num [pyFloat08]

/-- Lookup in a decoded JSON object.  Python keeps the last value for a
duplicated key, hence the reverse search. -/
def pyDictGet (d : List (PyStr × PyVal)) (k : PyStr) : Option PyVal :=
  match d.reverse.find? (fun p => p.1 == k) with
  | some p => some p.2
  | Option.none => Option.none

/-- Python's `v.get(k, default)`: only dicts have `.get`; on any other
value it raises `AttributeError`. -/
def pyGet (v : PyVal) (k : PyStr) (dflt : PyVal) : Except PyExc PyVal :=
  match v with
  | PyVal.dict d => Except.ok ((pyDictGet d k).getD dflt)
  | _ => Except.error PyExc.attributeError

/-- Python's `for x in v`: lists yield elements, strings the characters,
dicts the keys; other values raise `TypeError`. -/
def pyIter : PyVal → Except PyExc (List PyVal)
  | PyVal.list l => Except.ok l
  | PyVal.str s => Except.ok (s.map (fun c => PyVal.str [c]))
  | PyVal.dict d => Except.ok (d.map (fun p => PyVal.str p.1))
  | _ => Except.error PyExc.typeError

/-- Python's `v.upper()`: only strings have `.upper`; on any other value
it raises `AttributeError`. -/
def pyUpper : PyVal → Except PyExc PyStr
  | PyVal.str s => Except.ok (s.map Char.toUpper)
  | _ => Except.error PyExc.attributeError

/-- `Severity(s)` by string value (the enum values in state.py);
`none` models the raised `ValueError`. -/
def severityOfString (s : PyStr) : Option Severity :=
  if s = "BLOCKING".toList then some Severity.BLOCKING
  else if s = "NON_BLOCKING".toList then some Severity.NON_BLOCKING
  else if s = "SUGGESTION".toList then some Severity.SUGGESTION
  else Option.none

def intOfDecimalStr (s : PyStr) : Option ℤ :=
  let neg : Bool := decide (s.take 1 = ['-'])
  let s1 := if s.take 1 = ['-'] ∨ s.take 1 = ['+'] then s.drop 1 else s
  if s1 ≠ [] ∧ s1.all Char.isDigit then
    some (if neg then -(digitsToNat s1 : ℤ) else (digitsToNat s1 : ℤ))
  else Option.none

def floatOfStr (s : PyStr) : Option ℚ :=
  match parseNumber (pyStrip s) with
  | some (PyVal.int n, []) => some ((n : ℚ))
  | some (PyVal.float q, []) => some q
  | _ => Option.none

/-- pydantic v2 validation of a required `str` field. -/
def validateStr : PyVal → Except PyExc PyStr
  | PyVal.str s => Except.ok s
  | _ => Except.error PyExc.validationError

/-- pydantic v2 validation of an `Optional[str]` field. -/
def validateOptStr : PyVal → Except PyExc (Option PyStr)
  | PyVal.none => Except.ok Option.none
  | PyVal.str s => Except.ok (some s)
  | _ => Except.error PyExc.validationError

/-- pydantic v2 validation of an `Optional[int]` field (lax mode coerces
integral floats and integer strings; bool is rejected). -/
def validateOptInt : PyVal → Except PyExc (Option ℤ)
  | PyVal.none => Except.ok Option.none
  | PyVal.int n => Except.ok (some n)
  | PyVal.float q =>
    if q.den = 1 then Except.ok (some q.num) else Except.error PyExc.validationError
  | PyVal.str s =>
    match intOfDecimalStr s with
    | some n => Except.ok (some n)
    | Option.none => Except.error PyExc.validationError
  | _ => Except.error PyExc.validationError

/-- pydantic v2 validation of a `float` field (lax mode coerces ints and
numeric strings; bool is rejected). -/
def validateFloat : PyVal → Except PyExc ℚ
  | PyVal.int n => Except.ok ((n : ℚ))
  | PyVal.float q => Except.ok q
  | PyVal.str s =>
    match floatOfStr s with
    | some q => Except.ok q
    | Option.none => Except.error PyExc.validationError
  | _ => Except.error PyExc.validationError

/-- The `confidence` field of `ReviewFinding` carries `ge=0.0, le=1.0`
(state.py lines 40-42): out-of-range values raise a pydantic
`ValidationError` at construction. -/
def validateConfidence (v : PyVal) : Except PyExc ℚ := do
  let q ← validateFloat v
  if 0 ≤ q ∧ q ≤ 1 then pure q else Except.error PyExc.validationError

/-- The loop body of `_parse_findings` (bug_logic_review.py lines 122-142):
read the fields of one findings-array element defensively and construct a
`ReviewFinding`.  The inner `try` around `Severity(severity_str)` turns a
`ValueError` into the SUGGESTION default; pydantic validation errors from
the construction itself propagate. -/
def parse_finding_item (category : Category) (item : PyVal) : Except PyExc ReviewFinding := do
  let sevVal ← pyGet item ("severity".toList) (PyVal.str ("SUGGESTION".toList))
  let sevStr ← pyUpper sevVal
  let severity := (severityOfString sevStr).getD Severity.SUGGESTION
  let title ← validateStr (← pyGet item ("title".toList) (PyVal.str ("Untitled issue".toList)))
  let description ←
    validateStr (← pyGet item ("description".toList) (PyVal.str ("No description".toList)))
  let file_path ← validateOptStr (← pyGet item ("file_path".toList) PyVal.none)
  let line_start ← validateOptInt (← pyGet item ("line_start".toList) PyVal.none)
  let line_end ← validateOptInt (← pyGet item ("line_end".toList) PyVal.none)
  let code_snippet ← validateOptStr (← pyGet item ("code_snippet".toList) PyVal.none)
  let suggested_fix ← validateOptStr (← pyGet item ("suggested_fix".toList) PyVal.none)
  let confidence ← validateConfidence (← pyGet item ("confidence".toList) (PyVal.float pyFloat08))
  pure { severity := severity, category := category, title := title,
         description := description, file_path := file_path,
         line_start := line_start, line_end := line_end,
         code_snippet := code_snippet, suggested_fix := suggested_fix,
         confidence := confidence }

/-- The `for item in data.get("findings", [])` loop of `_parse_findings`. -/
def parse_items (category : Category) : List PyVal → Except PyExc (List ReviewFinding)
  | [] => Except.ok []
  | item :: rest => do
    let f ← parse_finding_item category item
    let fs ← parse_items category rest
    pure (f :: fs)

/-- The body of the `try` block of `_parse_findings` after `json.loads`
succeeded: `data.get("findings", [])`, iterate, build findings. -/
def findings_of_data (category : Category) (data : PyVal) : Except PyExc (List ReviewFinding) := do
  let fv ← pyGet data ("findings".toList) (PyVal.list [])
  let items ← pyIter fv
  parse_items category items

/-- The exception classes named by the `except` clause of `_parse_findings`:
`(json.JSONDecodeError, KeyError, TypeError)`. -/
def caught_by_parse_findings (e : PyExc) : Bool :=
  e == PyExc.jsonDecodeError || e == PyExc.keyError || e == PyExc.typeError

/-- `_parse_findings` from src/review/nodes/bug_logic_review.py: strip a
fenced block if present, `json.loads` the stripped text (a decode failure
is caught and yields `[]`), then build the findings list.  `KeyError` and
`TypeError` are caught and yield `[]`; any other exception (notably
`AttributeError` from `.get`/`.upper` on a wrongly-typed value, and
pydantic `ValidationError`) propagates as `Except.error`. -/
def _parse_findings (content : PyStr) (category : Category) : Except PyExc (List ReviewFinding) :=
  let content1 := extract_fenced content
  match json_loads (pyStrip content1) with
  | Option.none => Except.ok []
  | some data =>
    match findings_of_data category data with
    | Except.ok fs => Except.ok fs
    | Except.error e =>
      if caught_by_parse_findings e then Except.ok [] else Except.error e

/-- Smallest power of ten the denominator divides, if any below 40. -/
def decDenExp (den : ℕ) : Option ℕ :=
  (List.range 40).find? (fun k => 10 ^ k % den == 0)

/-- Python's `str()` of a float, on the rational model: exact decimal
rendering when the denominator divides a power of ten (the case for every
JSON-decoded float), a fraction rendering otherwise.  (CPython's shortest
round-trip repr of binary floats is approximated by this exact decimal
form.) -/
def floatStr (q : ℚ) : PyStr :=
  match decDenExp q.den with
  | some k =>
    let scaled := q.num.natAbs * (10 ^ k / q.den)
    let ip := scaled / 10 ^ k
    let fr := scaled % 10 ^ k
    let frDigits := Nat.toDigits 10 fr
    let padded := List.replicate (k - frDigits.length) '0' ++ frDigits
    let trimmed := (padded.reverse.dropWhile (fun c => c = '0')).reverse
    let fracPart := if trimmed = [] then ['0'] else trimmed
    (if q.num < 0 then ['-'] else []) ++ Nat.toDigits 10 ip ++ '.' :: fracPart
  | Option.none => (toString q.num).toList ++ '/' :: (toString q.den).toList

mutual

/-- Python's `repr()` on decoded JSON values (used inside `str()` of
containers). -/
def pyRepr : PyVal → PyStr
  | PyVal.none => "None".toList
  | PyVal.bool true => "True".toList
  | PyVal.bool false => "False".toList
  | PyVal.int n => (toString n).toList
  | PyVal.float q => floatStr q
  | PyVal.str s => '\'' :: s ++ ['\'']
  | PyVal.list l => '[' :: pyReprList l ++ [']']
  | PyVal.dict d => '\x7b' :: pyReprDict d ++ ['\x7d']

def pyReprList : List PyVal → PyStr
  | [] => []
  | [v] => pyRepr v
  | v :: rest => pyRepr v ++ (", ".toList) ++ pyReprList rest

def pyReprDict : List (PyStr × PyVal) → PyStr
  | [] => []
  | [(k, v)] => '\'' :: k ++ '\'' :: ':' :: ' ' :: pyRepr v
  | (k, v) :: rest =>
    ('\'' :: k ++ '\'' :: ':' :: ' ' :: pyRepr v) ++ (", ".toList) ++ pyReprDict rest

end

/-- Python's `str()` on decoded JSON values (as interpolated by f-strings). -/
def pyToStr : PyVal → PyStr
  | PyVal.str s => s
  | v => pyRepr v

/-- Python's `sep.join(v)`: every joined element must be a string, else
`TypeError`; joining a string joins its characters, joining a dict joins
its keys. -/
def pyJoin (sep : PyStr) (v : PyVal) : Except PyExc PyStr :=
  match v with
  | PyVal.list l =>
    if l.all (fun x => match x with | PyVal.str _ => true | _ => false) then
      Except.ok (List.intercalate sep
        (l.map (fun x => match x with | PyVal.str s => s | _ => [])))
    else Except.error PyExc.typeError
  | PyVal.str s => Except.ok (List.intercalate sep (s.map (fun c => [c])))
  | PyVal.dict d => Except.ok (List.intercalate sep (d.map (fun p => p.1)))
  | _ => Except.error PyExc.typeError

/-- The generator expression `chr(10).join(f"- {c}" for c in ...)` in
intent_analysis.py: iterate, format each element, join with newlines. -/
def intentConcernLines (v : PyVal) : Except PyExc PyStr := do
  let items ← pyIter v
  pure (List.intercalate ("\n".toList) (items.map (fun c => ("- ".toList) ++ pyToStr c)))

/-- The `try` block of `intent_analysis` (intent_analysis.py lines 67-83):
strip a fenced block, `json.loads` (failure modelled as a raised
`JSONDecodeError`), then format the multi-line summary from the parsed
fields with their "unknown"/"Unable to determine" defaults. -/
def intent_try (content : PyStr) : Except PyExc PyStr := do
  let c := extract_fenced content
  match json_loads (pyStrip c) with
  | Option.none => Except.error PyExc.jsonDecodeError
  | some analysis => do
    let sv ← pyGet analysis ("summary".toList) (PyVal.str ("Unable to determine".toList))
    let ct ← pyGet analysis ("change_type".toList) (PyVal.str ("unknown".toList))
    let rl ← pyGet analysis ("risk_level".toList) (PyVal.str ("unknown".toList))
    let aa ← pyGet analysis ("areas_affected".toList) (PyVal.list [])
    let kc ← pyGet analysis ("key_concerns".toList) (PyVal.list [])
    let aaJ ← pyJoin (", ".toList) aa
    let kcL ← intentConcernLines kc
    pure (("**Intent**: ".toList) ++ pyToStr sv
      ++ ("\n\n**Change Type**: ".toList) ++ pyToStr ct
      ++ ("\n**Risk Level**: ".toList) ++ pyToStr rl
      ++ ("\n**Areas Affected**: ".toList) ++ aaJ
      ++ ("\n\n**Key Concerns**:\n".toList) ++ kcL)

/-- The summary computation of `intent_analysis`
(src/review/nodes/intent_analysis.py lines 66-85) as a function of the raw
generator response text: the `except (json.JSONDecodeError, KeyError)`
clause falls back to `"Intent analysis: "` followed by the first 500
characters of the raw response; other exceptions propagate. -/
def intent_analysis_summary (content : PyStr) : Except PyExc PyStr :=
  match intent_try content with
  | Except.ok s => Except.ok s
  | Except.error e =>
    if e == PyExc.jsonDecodeError || e == PyExc.keyError then
      Except.ok (("Intent analysis: ".toList) ++ content.take 500)
    else Except.error e

/-- C3: the tolerant extractor in fact raises on a wrong top-level shape.
On input "[]" (a valid JSON document whose top level is an array, not an
object), `data.get("findings", [])` raises `AttributeError`, which the
`except (json.JSONDecodeError, KeyError, TypeError)` clause does not
catch, so `_parse_findings` propagates an exception instead of returning
the empty list. -/
theorem parse_findings_raises_on_top_level_array :
    _parse_findings ("[]".toList) Category.CORRECTNESS
      = Except.error PyExc.attributeError := by decide

/-- C9 counterexample: on the non-JSON response "hello" the summary is not
the first 500 characters of the raw output (it carries the
"Intent analysis: " prefix). -/
theorem intent_fallback_counterexample :
    intent_analysis_summary ("hello".toList)
      ≠ Except.ok (("hello".toList).take 500) := by decide

/-- C9 amended: whenever `json.loads` fails on the (fence-stripped)
response, the summary is exactly the string "Intent analysis: " followed
by the first 500 characters of the raw generator output. -/
theorem intent_fallback_prefix_of_parse_failure (content : PyStr)
    (h : json_loads (pyStrip (extract_fenced content)) = Option.none) :
    intent_analysis_summary content
      = Except.ok (("Intent analysis: ".toList) ++ content.take 500) := by
  unfold intent_analysis_summary intent_try
  simp only [h]
  rfl

/-- C9 amended witness at the concrete response "hello". -/
theorem intent_fallback_prefix_of_parse_failure_witness :
    intent_analysis_summary ("hello".toList)
      = Except.ok (("Intent analysis: ".toList) ++ ("hello".toList).take 500) :=
  intent_fallback_prefix_of_parse_failure _ rfl

/-- C7 counterexample: a findings-array element with an unrecognized
severity string and an out-of-range confidence is not turned into a
Finding: the pydantic range check on `confidence` raises an uncaught
`ValidationError`, so the element is discarded (with the whole call). -/
theorem severity_fallback_counterexample :
    _parse_findings
        ("\x7b\"findings\": [\x7b\"severity\": \"WEIRD\", \"confidence\": 2\x7d]\x7d".toList)
        Category.CORRECTNESS
      = Except.error PyExc.validationError
    ∧ ∀ fs : List ReviewFinding,
        _parse_findings
          ("\x7b\"findings\": [\x7b\"severity\": \"WEIRD\", \"confidence\": 2\x7d]\x7d".toList)
          Category.CORRECTNESS
          ≠ Except.ok fs := by
  have h1 : _parse_findings
      ("\x7b\"findings\": [\x7b\"severity\": \"WEIRD\", \"confidence\": 2\x7d]\x7d".toList)
      Category.CORRECTNESS = Except.error PyExc.validationError := by decide
  exact ⟨h1, fun fs h => by rw [h1] at h; exact Except.noConfusion h⟩

theorem except_bind_ok {ε α β : Type} (a : α) (f : α → Except ε β) :
    (Except.ok a : Except ε α) >>= f = f a := rfl

theorem except_pure_eq {ε α : Type} (a : α) : (pure a : Except ε α) = Except.ok a := rfl

/-- C7 amended: a findings-array element (a JSON object) whose severity is
absent or an unrecognized string, and whose remaining fields pass the
Finding model's validation, parses to a Finding with severity SUGGESTION
and is not discarded.  (Without the validation proviso the element can
instead abort the call with a `ValidationError`, e.g. on an out-of-range
confidence.) -/
theorem parse_finding_item_severity_fallback (category : Category)
    (d : List (PyStr × PyVal))
    (hsev : pyDictGet d ("severity".toList) = Option.none
      ∨ ∃ s, pyDictGet d ("severity".toList) = some (PyVal.str s)
          ∧ severityOfString (s.map Char.toUpper) = Option.none)
    (htitle : ∃ t, validateStr ((pyDictGet d ("title".toList)).getD
        (PyVal.str ("Untitled issue".toList))) = Except.ok t)
    (hdescr : ∃ t, validateStr ((pyDictGet d ("description".toList)).getD
        (PyVal.str ("No description".toList))) = Except.ok t)
    (hfile : ∃ t, validateOptStr ((pyDictGet d ("file_path".toList)).getD PyVal.none)
        = Except.ok t)
    (hls : ∃ t, validateOptInt ((pyDictGet d ("line_start".toList)).getD PyVal.none)
        = Except.ok t)
    (hle : ∃ t, validateOptInt ((pyDictGet d ("line_end".toList)).getD PyVal.none)
        = Except.ok t)
    (hcs : ∃ t, validateOptStr ((pyDictGet d ("code_snippet".toList)).getD PyVal.none)
        = Except.ok t)
    (hsf : ∃ t, validateOptStr ((pyDictGet d ("suggested_fix".toList)).getD PyVal.none)
        = Except.ok t)
    (hconf : ∃ q, validateConfidence ((pyDictGet d ("confidence".toList)).getD
        (PyVal.float pyFloat08)) = Except.ok q) :
    ∃ f, parse_finding_item category (PyVal.dict d) = Except.ok f
      ∧ f.severity = Severity.SUGGESTION := by
  obtain ⟨t1, ht1⟩ := htitle
  obtain ⟨t2, ht2⟩ := hdescr
  obtain ⟨t3, ht3⟩ := hfile
  obtain ⟨t4, ht4⟩ := hls
  obtain ⟨t5, ht5⟩ := hle
  obtain ⟨t6, ht6⟩ := hcs
  obtain ⟨t7, ht7⟩ := hsf
  obtain ⟨q, hq⟩ := hconf
  have hsevstep : ∃ s', pyUpper ((pyDictGet d ("severity".toList)).getD
        (PyVal.str ("SUGGESTION".toList))) = Except.ok s'
      ∧ (severityOfString s').getD Severity.SUGGESTION = Severity.SUGGESTION := by
    rcases hsev with hnone | ⟨s, hs, hbad⟩
    · refine ⟨("SUGGESTION".toList).map Char.toUpper, ?_, by decide⟩
      rw [hnone]
      rfl
    · refine ⟨s.map Char.toUpper, ?_, by rw [hbad]; rfl⟩
      rw [hs]
      rfl
  obtain ⟨s', hup, hsug⟩ := hsevstep
  refine ⟨{ severity := Severity.SUGGESTION, category := category, title := t1,
            description := t2, file_path := t3, line_start := t4, line_end := t5,
            code_snippet := t6, suggested_fix := t7, confidence := q }, ?_, rfl⟩
  unfold parse_finding_item
  simp only [pyGet, except_bind_ok, hup, hsug, ht1, ht2, ht3, ht4, ht5, ht6, ht7, hq,
    except_pure_eq]

/-- C7 amended witness: a concrete element with only an unrecognized
severity string. -/
theorem parse_finding_item_severity_fallback_witness :
    ∃ f, parse_finding_item Category.CORRECTNESS
        (PyVal.dict [(("severity".toList), PyVal.str ("WEIRD".toList))]) = Except.ok f
      ∧ f.severity = Severity.SUGGESTION :=
  parse_finding_item_severity_fallback Category.CORRECTNESS
    [(("severity".toList), PyVal.str ("WEIRD".toList))]
    (Or.inr ⟨("WEIRD".toList), rfl, rfl⟩)
    ⟨("Untitled issue".toList), rfl⟩ ⟨("No description".toList), rfl⟩
    ⟨Option.none, rfl⟩ ⟨Option.none, rfl⟩ ⟨Option.none, rfl⟩
    ⟨Option.none, rfl⟩ ⟨Option.none, rfl⟩ ⟨pyFloat08, by decide⟩

theorem firstSplit_nil (sep : PyStr) : firstSplit sep [] = Option.none := rfl

theorem firstSplit_cons_pos {sep : PyStr} {c : Char} {rest : PyStr}
    (h : sep.isPrefixOf (c :: rest) = true) :
    firstSplit sep (c :: rest) = some ([], (c :: rest).drop sep.length) := by
  simp only [firstSplit, h, if_true]

theorem firstSplit_cons_neg {sep : PyStr} {c : Char} {rest : PyStr}
    (h : sep.isPrefixOf (c :: rest) = false) :
    firstSplit sep (c :: rest) =
      match firstSplit sep rest with
      | some (pre, post) => some (c :: pre, post)
      | Option.none => Option.none := by
  simp only [firstSplit, h]
  rfl

theorem firstSplit_cons_step {sep : PyStr} {c : Char} {rest : PyStr}
    (h : sep.isPrefixOf (c :: rest) = false) (h2 : firstSplit sep rest = Option.none) :
    firstSplit sep (c :: rest) = Option.none := by
  rw [firstSplit_cons_neg h, h2]

theorem firstSplit_cons_none_inv {sep : PyStr} {c : Char} {rest : PyStr}
    (h : firstSplit sep (c :: rest) = Option.none) :
    sep.isPrefixOf (c :: rest) = false ∧ firstSplit sep rest = Option.none := by
  have h1 : sep.isPrefixOf (c :: rest) = false := by
    cases hfp : sep.isPrefixOf (c :: rest) with
    | false => rfl
    | true => rw [firstSplit_cons_pos hfp] at h; exact Option.noConfusion h
  refine ⟨h1, ?_⟩
  rw [firstSplit_cons_neg h1] at h
  cases hfs : firstSplit sep rest with
  | none => rfl
  | some p =>
    rw [hfs] at h
    obtain ⟨pre, post⟩ := p
    exact Option.noConfusion h

theorem firstSplit_self_append {sep : PyStr} (hne : sep ≠ []) (r : PyStr) :
    firstSplit sep (sep ++ r) = some ([], r) := by
  obtain ⟨c, s', rfl⟩ : ∃ c s', sep = c :: s' := by
    cases sep with
    | nil => exact absurd rfl hne
    | cons c s' => exact ⟨c, s', rfl⟩
  have hpre : (c :: s').isPrefixOf ((c :: s') ++ r) = true := by
    rw [List.isPrefixOf_iff_prefix]
    exact List.prefix_append _ _
  rw [List.cons_append] at hpre ⊢
  rw [firstSplit_cons_pos hpre, ← List.cons_append, List.drop_left]

theorem fence3_isPrefixOf_shape {l : PyStr} (h : fence3.isPrefixOf l = true) :
    ∃ r, l = '`' :: '`' :: '`' :: r := by
  rcases l with _ | ⟨a, _ | ⟨b, _ | ⟨c, r⟩⟩⟩ <;> simp [fence3, List.isPrefixOf] at h
  obtain ⟨h1, h2, h3⟩ := h
  subst h1
  subst h2
  subst h3
  exact ⟨r, rfl⟩

theorem fenceJson_isPrefixOf_imp {l : PyStr} (h : fenceJson.isPrefixOf l = true) :
    fence3.isPrefixOf l = true := by
  rw [List.isPrefixOf_iff_prefix] at h ⊢
  exact List.IsPrefix.trans ⟨['j', 's', 'o', 'n'], rfl⟩ h

theorem fence3_neg_extend {c : Char} {T W : PyStr}
    (h1 : fence3.isPrefixOf (c :: T) = false) :
    fence3.isPrefixOf (c :: (T ++ '\n' :: W)) = false := by
  cases hfp : fence3.isPrefixOf (c :: (T ++ '\n' :: W)) with
  | false => rfl
  | true =>
    exfalso
    obtain ⟨r, hr⟩ := fence3_isPrefixOf_shape hfp
    injection hr with hc hrest
    cases T with
    | nil =>
      rw [List.nil_append] at hrest
      injection hrest with hx _
      exact absurd hx (by decide)
    | cons d T' =>
      rw [List.cons_append] at hrest
      injection hrest with hd hrest2
      cases T' with
      | nil =>
        rw [List.nil_append] at hrest2
        injection hrest2 with hx _
        exact absurd hx (by decide)
      | cons e T'' =>
        rw [List.cons_append] at hrest2
        injection hrest2 with he _
        rw [hc, hd, he] at h1
        simp [fence3, List.isPrefixOf] at h1

theorem firstSplit_fence3_cons_nl {T : PyStr} (hT : firstSplit fence3 T = Option.none) :
    firstSplit fence3 ('\n' :: T) = Option.none := by
  have h : fence3.isPrefixOf ('\n' :: T) = false := by
    cases hfp : fence3.isPrefixOf ('\n' :: T) with
    | false => rfl
    | true =>
      obtain ⟨r, hr⟩ := fence3_isPrefixOf_shape hfp
      injection hr with hx _
      exact absurd hx (by decide)
  exact firstSplit_cons_step h hT

theorem firstSplit_fence3_wrap : ∀ T : PyStr, firstSplit fence3 T = Option.none →
    firstSplit fence3 (T ++ '\n' :: fence3) = some (T ++ ['\n'], []) := by
  intro T
  induction T with
  | nil => intro _; decide
  | cons c T' ih =>
    intro hT
    obtain ⟨h1, h2⟩ := firstSplit_cons_none_inv hT
    have h3 : fence3.isPrefixOf (c :: (T' ++ '\n' :: fence3)) = false := fence3_neg_extend h1
    rw [List.cons_append, firstSplit_cons_neg h3, ih h2]
    rfl

theorem firstSplit_fence3_snoc_nl : ∀ T : PyStr, firstSplit fence3 T = Option.none →
    firstSplit fence3 (T ++ ['\n']) = Option.none := by
  intro T
  induction T with
  | nil => intro _; decide
  | cons c T' ih =>
    intro hT
    obtain ⟨h1, h2⟩ := firstSplit_cons_none_inv hT
    have h3 : fence3.isPrefixOf (c :: (T' ++ '\n' :: [])) = false :=
      fence3_neg_extend (W := []) h1
    rw [List.cons_append]
    exact firstSplit_cons_step h3 (ih h2)

theorem firstSplit_fenceJson_wrap_none : ∀ T : PyStr, firstSplit fence3 T = Option.none →
    firstSplit fenceJson (T ++ '\n' :: fence3) = Option.none := by
  intro T
  induction T with
  | nil => intro _; decide
  | cons c T' ih =>
    intro hT
    obtain ⟨h1, h2⟩ := firstSplit_cons_none_inv hT
    have h3 : fenceJson.isPrefixOf (c :: (T' ++ '\n' :: fence3)) = false := by
      cases hfp : fenceJson.isPrefixOf (c :: (T' ++ '\n' :: fence3)) with
      | false => rfl
      | true =>
        have hf := fenceJson_isPrefixOf_imp hfp
        rw [fence3_neg_extend h1] at hf
        exact Bool.noConfusion hf
    rw [List.cons_append]
    exact firstSplit_cons_step h3 (ih h2)

theorem firstSplit_fenceJson_of_fence3 : ∀ T : PyStr, firstSplit fence3 T = Option.none →
    firstSplit fenceJson T = Option.none := by
  intro T
  induction T with
  | nil => intro _; rfl
  | cons c T' ih =>
    intro hT
    obtain ⟨h1, h2⟩ := firstSplit_cons_none_inv hT
    have h3 : fenceJson.isPrefixOf (c :: T') = false := by
      cases hfp : fenceJson.isPrefixOf (c :: T') with
      | false => rfl
      | true =>
        have hf := fenceJson_isPrefixOf_imp hfp
        rw [h1] at hf
        exact Bool.noConfusion hf
    exact firstSplit_cons_step h3 (ih h2)

theorem pySplitAux_succ (sep : PyStr) (fuel : ℕ) (s : PyStr) :
    pySplitAux sep (fuel + 1) s =
      match firstSplit sep s with
      | Option.none => [s]
      | some (pre, post) => pre :: pySplitAux sep fuel post := rfl

theorem pySplit_getD0 (sep s : PyStr) :
    (pySplit sep s).getD 0 [] =
      match firstSplit sep s with
      | Option.none => s
      | some (pre, _) => pre := by
  unfold pySplit
  rw [pySplitAux_succ]
  cases h : firstSplit sep s with
  | none => rfl
  | some p =>
    obtain ⟨pre, post⟩ := p
    rfl

theorem pySplit_getD1 {sep s pre post : PyStr}
    (h : firstSplit sep s = some (pre, post)) :
    (pySplit sep s).getD 1 [] =
      match firstSplit sep post with
      | Option.none => post
      | some (pre2, _) => pre2 := by
  have hs : s ≠ [] := by
    intro he
    rw [he, firstSplit_nil] at h
    exact Option.noConfusion h
  obtain ⟨m, hm⟩ : ∃ m, s.length = m + 1 := by
    cases hl : s.length with
    | zero => exact absurd (List.length_eq_zero.mp hl) hs
    | succ n => exact ⟨n, rfl⟩
  unfold pySplit
  rw [hm, pySplitAux_succ, h]
  show (pySplitAux sep (m + 1) post).getD 0 [] = _
  rw [pySplitAux_succ]
  cases h2 : firstSplit sep post with
  | none => rfl
  | some p =>
    obtain ⟨pre2, post2⟩ := p
    rfl

theorem firstSplit_none_of_not_contains {sep T : PyStr}
    (h : pyContainsSub sep T = false) : firstSplit sep T = Option.none := by
  unfold pyContainsSub at h
  cases hfs : firstSplit sep T with
  | none => rfl
  | some p =>
    rw [hfs] at h
    exact Bool.noConfusion h

theorem extract_fenced_id_of_no_fence {T : PyStr}
    (hT : firstSplit fence3 T = Option.none) : extract_fenced T = T := by
  have hj : firstSplit fenceJson T = Option.none := firstSplit_fenceJson_of_fence3 T hT
  unfold extract_fenced pyContainsSub
  rw [hT, hj]
  rfl

theorem extract_fenced_json_wrap {T : PyStr} (hT : firstSplit fence3 T = Option.none) :
    extract_fenced (fenceJson ++ '\n' :: (T ++ '\n' :: fence3)) = '\n' :: (T ++ ['\n']) := by
  have hT' : firstSplit fence3 ('\n' :: T) = Option.none := firstSplit_fence3_cons_nl hT
  have h1 : firstSplit fenceJson (fenceJson ++ '\n' :: (T ++ '\n' :: fence3))
      = some ([], '\n' :: (T ++ '\n' :: fence3)) := firstSplit_self_append (by decide) _
  have h2 : firstSplit fenceJson ('\n' :: (T ++ '\n' :: fence3)) = Option.none := by
    have hw := firstSplit_fenceJson_wrap_none ('\n' :: T) hT'
    rw [List.cons_append] at hw
    exact hw
  have h3 : firstSplit fence3 ('\n' :: (T ++ '\n' :: fence3))
      = some ('\n' :: (T ++ ['\n']), []) := by
    have hw := firstSplit_fence3_wrap ('\n' :: T) hT'
    simp only [List.cons_append] at hw
    exact hw
  unfold extract_fenced pyContainsSub
  rw [h1]
  show (pySplit fence3 ((pySplit fenceJson _).getD 1 [])).getD 0 [] = _
  rw [pySplit_getD1 h1, h2]
  show (pySplit fence3 ('\n' :: (T ++ '\n' :: fence3))).getD 0 [] = _
  rw [pySplit_getD0, h3]

theorem extract_fenced_bare_wrap {T : PyStr} (hT : firstSplit fence3 T = Option.none) :
    extract_fenced (fence3 ++ '\n' :: (T ++ '\n' :: fence3)) = '\n' :: (T ++ ['\n']) := by
  have hT' : firstSplit fence3 ('\n' :: T) = Option.none := firstSplit_fence3_cons_nl hT
  have hJ : firstSplit fenceJson (fence3 ++ '\n' :: (T ++ '\n' :: fence3)) = Option.none := by
    have e4 : firstSplit fenceJson ('\n' :: (T ++ '\n' :: fence3)) = Option.none :=
      firstSplit_cons_step rfl (firstSplit_fenceJson_wrap_none T hT)
    have e3 : firstSplit fenceJson ('`' :: '\n' :: (T ++ '\n' :: fence3)) = Option.none :=
      firstSplit_cons_step rfl e4
    have e2 : firstSplit fenceJson ('`' :: '`' :: '\n' :: (T ++ '\n' :: fence3)) = Option.none :=
      firstSplit_cons_step rfl e3
    exact firstSplit_cons_step rfl e2
  have h1 : firstSplit fence3 (fence3 ++ '\n' :: (T ++ '\n' :: fence3))
      = some ([], '\n' :: (T ++ '\n' :: fence3)) := firstSplit_self_append (by decide) _
  have h3 : firstSplit fence3 ('\n' :: (T ++ '\n' :: fence3))
      = some ('\n' :: (T ++ ['\n']), []) := by
    have hw := firstSplit_fence3_wrap ('\n' :: T) hT'
    simp only [List.cons_append] at hw
    exact hw
  have h4 : firstSplit fence3 ('\n' :: (T ++ ['\n'])) = Option.none := by
    have hw := firstSplit_fence3_snoc_nl ('\n' :: T) hT'
    rw [List.cons_append] at hw
    exact hw
  unfold extract_fenced pyContainsSub
  rw [hJ, h1]
  show (pySplit fence3 ((pySplit fence3 _).getD 1 [])).getD 0 [] = _
  rw [pySplit_getD1 h1, h3]
  show (pySplit fence3 ('\n' :: (T ++ ['\n']))).getD 0 [] = _
  rw [pySplit_getD0, h4]

theorem pyStrip_cons_ws {c : Char} (hc : isPyWs c = true) (s : PyStr) :
    pyStrip (c :: s) = pyStrip s := by
  unfold pyStrip
  rw [List.dropWhile_cons]
  simp [hc]

theorem pyStrip_append_ws {c : Char} (hc : isPyWs c = true) (s : PyStr) :
    pyStrip (s ++ [c]) = pyStrip s := by
  unfold pyStrip
  rw [List.dropWhile_append]
  cases h : (s.dropWhile isPyWs).isEmpty with
  | true =>
    rw [if_pos rfl]
    rw [List.isEmpty_iff.mp h]
    simp [List.dropWhile_cons, hc]
  | false =>
    rw [if_neg Bool.false_ne_true]
    rw [List.reverse_append]
    simp [List.dropWhile_cons, hc]

theorem pyStrip_wrap (T : PyStr) : pyStrip ('\n' :: (T ++ ['\n'])) = pyStrip T := by
  rw [pyStrip_cons_ws (by decide), pyStrip_append_ws (by decide)]

theorem parse_findings_strip_congr {a b : PyStr} (category : Category)
    (h : pyStrip (extract_fenced a) = pyStrip (extract_fenced b)) :
    _parse_findings a category = _parse_findings b category := by
  simp only [_parse_findings]
  rw [h]

/-- C4 counterexample: wrapping a well-formed findings document in a
"```python"-tagged fence changes the extracted Finding sequence (the tag
word is left inside the block content, so the JSON parse fails and the
wrapped text yields no findings). -/
theorem parse_findings_fence_counterexample :
    _parse_findings ("```python\n\x7b\"findings\": [\x7b\x7d]\x7d\n```".toList) Category.CORRECTNESS
      ≠ _parse_findings ("\x7b\"findings\": [\x7b\x7d]\x7d".toList) Category.CORRECTNESS := by decide

/-- C4 amended: for a text containing no fence marker, wrapping it in a
JSON-tagged fence or in an untagged fence leaves the extracted Finding
sequence unchanged (an arbitrary otherwise-tagged fence marker, or a text
already containing a fence marker, can change it). -/
theorem parse_findings_fence_invariant (T : PyStr) (category : Category)
    (hT : pyContainsSub fence3 T = false) :
    _parse_findings (("```json\n".toList) ++ T ++ ("\n```".toList)) category
      = _parse_findings T category
    ∧ _parse_findings (("```\n".toList) ++ T ++ ("\n```".toList)) category
      = _parse_findings T category := by
  have hfs : firstSplit fence3 T = Option.none := firstSplit_none_of_not_contains hT
  have hid : extract_fenced T = T := extract_fenced_id_of_no_fence hfs
  constructor
  · apply parse_findings_strip_congr
    show pyStrip (extract_fenced (fenceJson ++ '\n' :: (T ++ '\n' :: fence3))) = _
    rw [extract_fenced_json_wrap hfs, hid, pyStrip_wrap]
  · apply parse_findings_strip_congr
    show pyStrip (extract_fenced (fence3 ++ '\n' :: (T ++ '\n' :: fence3))) = _
    rw [extract_fenced_bare_wrap hfs, hid, pyStrip_wrap]

/-- C4 amended witness at a concrete findings document. -/
theorem parse_findings_fence_invariant_witness :
    pyContainsSub fence3 ("\x7b\"findings\": []\x7d".toList) = false
    ∧ _parse_findings
        (("```json\n".toList) ++ ("\x7b\"findings\": []\x7d".toList) ++ ("\n```".toList))
        Category.CORRECTNESS
      = _parse_findings ("\x7b\"findings\": []\x7d".toList) Category.CORRECTNESS
    ∧ _parse_findings
        (("```\n".toList) ++ ("\x7b\"findings\": []\x7d".toList) ++ ("\n```".toList))
        Category.CORRECTNESS
      = _parse_findings ("\x7b\"findings\": []\x7d".toList) Category.CORRECTNESS :=
  ⟨rfl, (parse_findings_fence_invariant ("\x7b\"findings\": []\x7d".toList) Category.CORRECTNESS rfl).1,
    (parse_findings_fence_invariant ("\x7b\"findings\": []\x7d".toList) Category.CORRECTNESS rfl).2⟩
